import Mathlib

/-!
Shallow embedding of the query/pagination/cart layer of `src/index.mjs`
(a mock e-commerce REST backend: product search/filter/sort/paginate,
cursor-paginated feed, and a per-session in-memory cart with stock-aware
add/update/remove/clear/validate).

Modelling conventions:
* JS numbers that the code treats as integers (ids, stock, quantities,
  cursors, pages) are `Int` or `Nat`; prices and ratings are `ℚ`.
  `Number.prototype.toFixed(2)` is embedded as exact rational rounding
  to two decimals (`round2`).
* Request-body fields that may be absent are `Option`; the JS falsy
  check `!productId` rejects both an absent and a zero productId.
* The cart storage object `cart` keyed by sessionId is a function
  `String → Option (List CartLine)`; the `createdAt` timestamp is
  omitted (no verified property mentions it).
* `Array.prototype.sort` with the handler's comparator is embedded as a
  stable merge sort with respect to the same comparator;
  `String.prototype.localeCompare` is abstracted as lexicographic
  comparison of the Lean strings (the properties proved below use only
  that sorting permutes the list).
* Handlers are pure functions from the store and request to a result
  (`Except CartError …`) together with the updated store; a JS
  `TypeError` escaping to the catch-all 500 handler is `CartError.internal`.
-/

/-- A catalog product record (from `products.json`, read-only after load). -/
structure Product where
  id : Int
  name : String
  description : String
  tags : List String
  category : String
  subcategory : String
  brand : String
  price : ℚ
  rating : ℚ
  inStock : Bool
  stock : Nat
  image : String
deriving DecidableEq

/-- Query parameters of `GET /api/products` after parsing, with the JS
destructuring defaults (`search = ''`, `minPrice = 0`,
`maxPrice = Infinity` embedded as `none`, `minRating = 0`,
`sort = 'name'`, `order = 'asc'`, `page = 1`, `limit = 6`,
`inStock = ''`). An empty string means the filter is inactive, exactly
as the JS truthiness checks do. -/
structure ProductQuery where
  search : String
  category : String
  subcategory : String
  brand : String
  minPrice : ℚ
  maxPrice : Option ℚ
  minRating : ℚ
  sortKey : String
  order : String
  page : Nat
  limit : Nat
  inStock : String
deriving DecidableEq

/-- `needle` occurs at the head of `hay`. -/
def headMatches : List Char → List Char → Bool
  | [], _ => true
  | _ :: _, [] => false
  | a :: as, b :: bs => a == b && headMatches as bs

/-- `needle` occurs contiguously somewhere in `hay`
(JS `String.prototype.includes`). -/
def hasSubChars (needle : List Char) : List Char → Bool
  | [] => needle.isEmpty
  | b :: bs => headMatches needle (b :: bs) || hasSubChars needle bs

/-- JS `hay.includes(needle)`. -/
def jsIncludes (hay needle : String) : Bool :=
  hasSubChars needle.toList hay.toList

/-- The search predicate of the products handler: the lowercased name,
description, or some lowercased tag contains the lowercased term. -/
def matchesSearch (searchLower : String) (p : Product) : Bool :=
  jsIncludes p.name.toLower searchLower ||
  jsIncludes p.description.toLower searchLower ||
  p.tags.any (fun tag => jsIncludes tag.toLower searchLower)

/-- Search stage: `if (search) filtered = filtered.filter(…)`. -/
def stageSearch (q : ProductQuery) (l : List Product) : List Product :=
  if q.search == "" then l else l.filter (matchesSearch q.search.toLower)

/-- Category stage. -/
def stageCategory (q : ProductQuery) (l : List Product) : List Product :=
  if q.category == "" then l else
    l.filter (fun p => p.category.toLower == q.category.toLower)

/-- Subcategory stage. -/
def stageSubcategory (q : ProductQuery) (l : List Product) : List Product :=
  if q.subcategory == "" then l else
    l.filter (fun p => p.subcategory.toLower == q.subcategory.toLower)

/-- Brand stage. -/
def stageBrand (q : ProductQuery) (l : List Product) : List Product :=
  if q.brand == "" then l else
    l.filter (fun p => p.brand.toLower == q.brand.toLower)

/-- Price-range stage (unconditional:
`p.price >= parseFloat(minPrice) && p.price <= parseFloat(maxPrice)`,
where an absent `maxPrice` is `Infinity`). -/
def stagePrice (q : ProductQuery) (l : List Product) : List Product :=
  l.filter (fun p =>
    decide (q.minPrice ≤ p.price) &&
    (match q.maxPrice with
     | none => true
     | some mp => decide (p.price ≤ mp)))

/-- Rating stage (unconditional). -/
def stageRating (q : ProductQuery) (l : List Product) : List Product :=
  l.filter (fun p => decide (q.minRating ≤ p.rating))

/-- Stock stage: tri-state on the `inStock` query string. -/
def stageStock (q : ProductQuery) (l : List Product) : List Product :=
  if q.inStock == "true" then
    l.filter (fun p => p.inStock && decide (0 < p.stock))
  else if q.inStock == "false" then
    l.filter (fun p => !p.inStock || decide (p.stock = 0))
  else
    l

/-- The filter pipeline of `GET /api/products`, applied in source order:
search, category, subcategory, brand, price range, rating, stock. -/
def filteredProducts (products : List Product) (q : ProductQuery) : List Product :=
  stageStock q (stageRating q (stagePrice q (stageBrand q
    (stageSubcategory q (stageCategory q (stageSearch q products))))))

/-- Three-way comparison on rationals. -/
def qOrd (a b : ℚ) : Ordering :=
  if a < b then .lt else if b < a then .gt else .eq

/-- Three-way comparison on strings (abstraction of `localeCompare`). -/
def strOrd (a b : String) : Ordering :=
  if a < b then .lt else if b < a then .gt else .eq

/-- The products handler's comparator (`switch (sort)`, default `name`). -/
def productCmp (sortKey : String) (a b : Product) : Ordering :=
  if sortKey == "price" then qOrd a.price b.price
  else if sortKey == "rating" then qOrd a.rating b.rating
  else strOrd a.name b.name

/-- `a` precedes-or-ties `b` under the effective comparator
(`order === 'desc'` negates the comparison value). -/
def productLe (sortKey order : String) (a b : Product) : Bool :=
  if order == "desc" then !(productCmp sortKey a b == .lt)
  else !(productCmp sortKey a b == .gt)

/-- The filtered list in its sorted order. -/
def sortedProducts (products : List Product) (q : ProductQuery) : List Product :=
  (filteredProducts products q).mergeSort (productLe q.sortKey q.order)

/-- Pagination metadata of the products response. -/
structure Pagination where
  currentPage : Nat
  totalPages : Nat
  totalItems : Nat
  itemsPerPage : Nat
  hasNextPage : Bool
  hasPrevPage : Bool
deriving DecidableEq

/-- Result of `GET /api/products`. -/
structure ProductsResult where
  data : List Product
  pagination : Pagination
deriving DecidableEq

/-- `GET /api/products`: filter, sort, and slice
`[(page-1)*limit, page*limit)`; `Math.ceil(length / limit)` is embedded
as ceiling division (the handlers' in-spec domain is `limit ≥ 1`). -/
def productsQuery (products : List Product) (q : ProductQuery) : ProductsResult :=
  let filtered := filteredProducts products q
  let sorted := filtered.mergeSort (productLe q.sortKey q.order)
  let startIndex := (q.page - 1) * q.limit
  let endIndex := startIndex + q.limit
  { data := (sorted.drop startIndex).take q.limit
    pagination :=
      { currentPage := q.page
        totalPages := (filtered.length + q.limit - 1) / q.limit
        totalItems := filtered.length
        itemsPerPage := q.limit
        hasNextPage := decide (endIndex < filtered.length)
        hasPrevPage := decide (1 < q.page) } }

/-- A feed entry (from `feed.json`); the display payload is opaque. -/
structure FeedItem where
  id : Int
  category : String
  payload : String
deriving DecidableEq

/-- Result of `GET /api/feed`. -/
structure FeedResult where
  data : List FeedItem
  nextCursor : Option Nat
  hasMore : Bool
  total : Nat
  returned : Nat
deriving DecidableEq

/-- The feed handler's category filter. -/
def filteredFeed (feed : List FeedItem) (category : String) : List FeedItem :=
  if category == "" then feed else
    feed.filter (fun f => f.category.toLower == category.toLower)

/-- `GET /api/feed`: optional category filter, slice
`[cursor, cursor+limit)`, `nextCursor = endIndex` when
`endIndex < filtered.length` else null, `hasMore = nextCursor !== null`. -/
def feedQuery (feed : List FeedItem) (category : String) (cursor limit : Nat) : FeedResult :=
  let filtered := filteredFeed feed category
  let items := (filtered.drop cursor).take limit
  let nextCursor := if cursor + limit < filtered.length then some (cursor + limit) else none
  { data := items
    nextCursor := nextCursor
    hasMore := !(nextCursor == none)
    total := filtered.length
    returned := items.length }

/-- A cart line: product reference plus add-time snapshot fields. -/
structure CartLine where
  productId : Int
  name : String
  price : ℚ
  image : String
  quantity : Int
deriving DecidableEq

/-- The in-memory cart storage `cart`, keyed by sessionId
(`none` = no cart object for that session). -/
abbrev CartMap := String → Option (List CartLine)

/-- One entry of the `issues` list built by `POST /api/cart/validate`. -/
inductive CartIssue where
  | gone (productId : Int)
  | outOfStock (productId : Int) (name : String)
  | insufficient (productId : Int) (name : String) (requested : Int) (available : Nat)
  | priceChanged (productId : Int) (name : String) (oldPrice newPrice : ℚ)
deriving DecidableEq

/-- Error responses of the cart handlers. -/
inductive CartError where
  | validation (msg : String)
  | notFound (msg : String)
  | insufficientStock (availableStock : Nat) (currentInCart : Option Int)
  | emptyCart
  | validationFailed (issues : List CartIssue) (validItems : List CartLine)
  | internal
deriving DecidableEq

/-- Summary block `{subtotal, itemCount}` of cart responses. -/
structure CartSummary where
  subtotal : ℚ
  itemCount : Int
deriving DecidableEq

/-- Successful payload of the cart handlers: items plus summary. -/
structure CartOut where
  items : List CartLine
  summary : CartSummary
deriving DecidableEq

/-- `Number.prototype.toFixed(2)` on a rational: round to the nearest
hundredth (halves away from zero for the non-negative values that occur). -/
def round2 (x : ℚ) : ℚ := ((x * 100 + 1 / 2).floor : ℚ) / 100

/-- `items.reduce((sum, item) => sum + item.price * item.quantity, 0)`. -/
def subtotalOf (items : List CartLine) : ℚ :=
  items.foldl (fun sum item => sum + item.price * (item.quantity : ℚ)) 0

/-- `items.reduce((sum, item) => sum + item.quantity, 0)`. -/
def itemCountOf (items : List CartLine) : Int :=
  items.foldl (fun sum item => sum + item.quantity) 0

/-- Items-plus-summary payload computed by the handlers. -/
def mkCartOut (items : List CartLine) : CartOut :=
  ⟨items, ⟨round2 (subtotalOf items), itemCountOf items⟩⟩

/-- The JS falsy check `!productId` on a request-body product id:
true when the field is absent or zero. -/
def jsFalsyId : Option Int → Bool
  | none => true
  | some i => i == 0

/-- `products.find(p => p.id === id)`. -/
def findProduct (products : List Product) (id : Int) : Option Product :=
  products.find? (fun p => p.id == id)

/-- In-place mutation of the first matching element
(`array.find(f)` followed by assignment to the found object). -/
def replaceFirst (f : CartLine → Bool) (g : CartLine → CartLine) : List CartLine → List CartLine
  | [] => []
  | x :: xs => if f x then g x :: xs else x :: replaceFirst f g xs

/-- `GET /api/cart`: read-only view; an absent cart reads as empty and
is not created (`cart[sessionId] || { items: [] … }`). -/
def getCartOp (m : CartMap) (sid : String) : CartOut × CartMap :=
  let items := (m sid).getD []
  (mkCartOut items, m)

/-- `POST /api/cart/add`. Validation (`!productId`), product resolution,
first stock check (`!product.inStock || product.stock < quantity`), lazy
cart creation, then either the combined-quantity stock check plus
in-place increment for an existing line, or appending a snapshot line. -/
def addOp (products : List Product) (m : CartMap) (sid : String)
    (productId : Option Int) (quantity : Option Int) :
    Except CartError CartOut × CartMap :=
  if jsFalsyId productId then
    (.error (.validation "productId is required"), m)
  else
    match findProduct products (productId.getD 0) with
    | none => (.error (.notFound "Product not found"), m)
    | some product =>
      let qty := quantity.getD 1
      if !product.inStock || decide ((product.stock : Int) < qty) then
        (.error (.insufficientStock product.stock none), m)
      else
        let items0 := (m sid).getD []
        let m1 : CartMap := fun s => if s = sid then some items0 else m s
        match items0.find? (fun item => item.productId == product.id) with
        | some existingItem =>
          let newQuantity := existingItem.quantity + qty
          if decide ((product.stock : Int) < newQuantity) then
            (.error (.insufficientStock product.stock (some existingItem.quantity)), m1)
          else
            let items1 := replaceFirst (fun item => item.productId == product.id)
              (fun item => { item with quantity := newQuantity }) items0
            (.ok (mkCartOut items1), fun s => if s = sid then some items1 else m s)
        | none =>
          let items1 := items0 ++
            [⟨product.id, product.name, product.price, product.image, qty⟩]
          (.ok (mkCartOut items1), fun s => if s = sid then some items1 else m s)

/-- `PUT /api/cart/update`. Validation (`!productId || quantity ===
undefined`), cart and line lookup, unguarded live-product lookup (a
missing product raises a `TypeError` caught by the 500 handler:
`.internal`), stock check, then removal (quantity 0) or in-place
replacement of the line's quantity. -/
def updateOp (products : List Product) (m : CartMap) (sid : String)
    (productId : Option Int) (quantity : Option Int) :
    Except CartError CartOut × CartMap :=
  if jsFalsyId productId || quantity == none then
    (.error (.validation "productId and quantity are required"), m)
  else
    let pid := productId.getD 0
    let qty := quantity.getD 0
    match m sid with
    | none => (.error (.notFound "Cart not found"), m)
    | some items =>
      match items.find? (fun item => item.productId == pid) with
      | none => (.error (.notFound "Item not in cart"), m)
      | some _ =>
        match findProduct products pid with
        | none => (.error .internal, m)
        | some product =>
          if decide ((product.stock : Int) < qty) then
            (.error (.insufficientStock product.stock none), m)
          else if qty == 0 then
            let items1 := items.filter (fun item => !(item.productId == pid))
            (.ok (mkCartOut items1), fun s => if s = sid then some items1 else m s)
          else
            let items1 := replaceFirst (fun item => item.productId == pid)
              (fun item => { item with quantity := qty }) items
            (.ok (mkCartOut items1), fun s => if s = sid then some items1 else m s)

/-- `DELETE /api/cart/remove/:productId`: idempotent filter once the
cart exists. -/
def removeOp (m : CartMap) (sid : String) (productId : Int) :
    Except CartError CartOut × CartMap :=
  match m sid with
  | none => (.error (.notFound "Cart not found"), m)
  | some items =>
    let items1 := items.filter (fun item => !(item.productId == productId))
    (.ok (mkCartOut items1), fun s => if s = sid then some items1 else m s)

/-- `DELETE /api/cart/clear`: unconditional success; the session's entry
is gone afterwards. -/
def clearOp (m : CartMap) (sid : String) : Except CartError Unit × CartMap :=
  (.ok (), fun s => if s = sid then none else m s)

/-- One iteration of the `forEach` in `POST /api/cart/validate`:
classify a line against the live catalog and append to the
issues / valid-items accumulators. -/
def validateStep (products : List Product) (acc : List CartIssue × List CartLine)
    (cartItem : CartLine) : List CartIssue × List CartLine :=
  let issues := acc.1
  let validItems := acc.2
  match findProduct products cartItem.productId with
  | none => (issues ++ [.gone cartItem.productId], validItems)
  | some product =>
    if !product.inStock || decide (product.stock = 0) then
      (issues ++ [.outOfStock cartItem.productId cartItem.name], validItems)
    else if decide ((product.stock : Int) < cartItem.quantity) then
      (issues ++ [.insufficient cartItem.productId cartItem.name
        cartItem.quantity product.stock], validItems)
    else if !(product.price == cartItem.price) then
      (issues ++ [.priceChanged cartItem.productId cartItem.name
        cartItem.price product.price],
       validItems ++ [{ cartItem with price := product.price }])
    else
      (issues, validItems ++ [cartItem])

/-- `POST /api/cart/validate`: EmptyCart when the cart is absent or has
no lines; otherwise classify every line, fail with the issues plus the
partially corrected valid items when any issue exists, else succeed with
the valid items and a recomputed summary. The store is never mutated. -/
def validateOp (products : List Product) (m : CartMap) (sid : String) :
    Except CartError CartOut × CartMap :=
  match m sid with
  | none => (.error .emptyCart, m)
  | some items =>
    if items.length == 0 then (.error .emptyCart, m)
    else
      let acc := items.foldl (validateStep products) ([], [])
      if 0 < acc.1.length then (.error (.validationFailed acc.1 acc.2), m)
      else (.ok (mkCartOut acc.2), m)

/-- A mutating cart request (the read-only handlers never touch the store). -/
inductive Request where
  | add (sid : String) (productId : Option Int) (quantity : Option Int)
  | update (sid : String) (productId : Option Int) (quantity : Option Int)
  | remove (sid : String) (productId : Int)
  | clear (sid : String)
deriving DecidableEq

/-- Outcome and updated store of one mutating request. -/
def stepResult (products : List Product) (m : CartMap) :
    Request → Except CartError Unit × CartMap
  | .add sid productId quantity =>
    let r := addOp products m sid productId quantity
    (r.1.map (fun _ => ()), r.2)
  | .update sid productId quantity =>
    let r := updateOp products m sid productId quantity
    (r.1.map (fun _ => ()), r.2)
  | .remove sid productId =>
    let r := removeOp m sid productId
    (r.1.map (fun _ => ()), r.2)
  | .clear sid => clearOp m sid

/-- Store after one mutating request. -/
def step (products : List Product) (m : CartMap) (req : Request) : CartMap :=
  (stepResult products m req).2

/-- Store reached from the empty storage by a sequence of requests
(the catalog is fixed for the whole process run). -/
def runRequests (products : List Product) (reqs : List Request) : CartMap :=
  reqs.foldl (step products) (fun _ => none)

/-- Spec-side (claim C4 wording) classification of one cart line: the
issue it raises, if any, checking in order: missing product, out of
stock, insufficient stock, price changed. -/
def specIssue (products : List Product) (l : CartLine) : Option CartIssue :=
  match findProduct products l.productId with
  | none => some (.gone l.productId)
  | some p =>
    if ¬ p.inStock ∨ p.stock = 0 then some (.outOfStock l.productId l.name)
    else if (p.stock : Int) < l.quantity then
      some (.insufficient l.productId l.name l.quantity p.stock)
    else if p.price ≠ l.price then
      some (.priceChanged l.productId l.name l.price p.price)
    else none

/-- Spec-side (claim C4 wording) valid-items contribution of one cart
line: dropped when gone / out of stock / insufficient, kept with the new
price when only the price changed, kept unchanged when issue-free. -/
def specValid (products : List Product) (l : CartLine) : Option CartLine :=
  match findProduct products l.productId with
  | none => none
  | some p =>
    if ¬ p.inStock ∨ p.stock = 0 then none
    else if (p.stock : Int) < l.quantity then none
    else if p.price ≠ l.price then some { l with price := p.price }
    else some l

/-- Requests whose caller-supplied quantities are in the documented
range: Add with a positive (or defaulted) quantity, Update with a
non-negative quantity. -/
def posQuantities : Request → Prop
  | .add _ _ quantity => 1 ≤ quantity.getD 1
  | .update _ _ quantity => ∀ q, quantity = some q → 0 ≤ q
  | .remove _ _ => True
  | .clear _ => True

/-- The cart invariant used by claims C9 and C10: every line of every
session's cart has a positive quantity (tracked only under
`posQuantities` traces) is stated separately; this predicate is the
catalog-reference half: every line's productId resolves. -/
def linesResolve (products : List Product) (m : CartMap) : Prop :=
  ∀ sid l, l ∈ (m sid).getD [] → ∃ p ∈ products, p.id = l.productId

/-- Every line of every session's cart has a positive quantity. -/
def linesPositive (m : CartMap) : Prop :=
  ∀ sid l, l ∈ (m sid).getD [] → 0 < l.quantity

theorem foldl_add_map {α β : Type} [AddCommMonoid β] (f : α → β) :
    ∀ (l : List α) (a : β), l.foldl (fun s x => s + f x) a = a + (l.map f).sum
  | [], a => by simp
  | x :: xs, a => by
    simp only [List.foldl_cons, List.map_cons, List.sum_cons]
    rw [foldl_add_map f xs (a + f x), add_assoc]

theorem subtotalOf_eq_sum (items : List CartLine) :
    subtotalOf items = (items.map (fun l => l.price * (l.quantity : ℚ))).sum := by
  unfold subtotalOf
  rw [foldl_add_map (fun l : CartLine => l.price * (l.quantity : ℚ)) items 0]
  simp

theorem itemCountOf_eq_sum (items : List CartLine) :
    itemCountOf items = (items.map CartLine.quantity).sum := by
  unfold itemCountOf
  rw [foldl_add_map CartLine.quantity items 0]
  simp

theorem mem_replaceFirst {f : CartLine → Bool} {g : CartLine → CartLine} {l : CartLine} :
    ∀ {items : List CartLine}, l ∈ replaceFirst f g items →
      l ∈ items ∨ ∃ x ∈ items, f x ∧ l = g x := by
  intro items
  induction items with
  | nil => intro h; exact absurd h (List.not_mem_nil l)
  | cons x xs ih =>
    intro h
    unfold replaceFirst at h
    by_cases hf : f x = true
    · rw [if_pos hf] at h
      rcases List.mem_cons.mp h with h1 | h2
      · exact Or.inr ⟨x, List.mem_cons_self x xs, hf, h1⟩
      · exact Or.inl (List.mem_cons_of_mem x h2)
    · rw [if_neg hf] at h
      rcases List.mem_cons.mp h with h1 | h2
      · exact Or.inl (h1 ▸ List.mem_cons_self x xs)
      · rcases ih h2 with h3 | ⟨y, hy, hfy, hly⟩
        · exact Or.inl (List.mem_cons_of_mem x h3)
        · exact Or.inr ⟨y, List.mem_cons_of_mem x hy, hfy, hly⟩

theorem map_replaceFirst_of_fixed (f : CartLine → Bool) (g : CartLine → CartLine)
    (key : CartLine → Int) (hg : ∀ x, key (g x) = key x)
    (items : List CartLine) : (replaceFirst f g items).map key = items.map key := by
  induction items with
  | nil => rfl
  | cons x xs ih =>
    unfold replaceFirst
    by_cases hf : f x = true
    · rw [if_pos hf]; simp [hg]
    · rw [if_neg hf]; simp only [List.map_cons, ih]

theorem map_if_no_match {g : CartLine → CartLine} {i : Int} {items : List CartLine}
    (h : ∀ x ∈ items, x.productId ≠ i) :
    items.map (fun x => if x.productId = i then g x else x) = items := by
  induction items with
  | nil => rfl
  | cons x xs ih =>
    simp only [List.map_cons]
    rw [if_neg (h x (List.mem_cons_self x xs))]
    rw [ih (fun y hy => h y (List.mem_cons_of_mem x hy))]

theorem replaceFirst_eq_map {g : CartLine → CartLine} {i : Int}
    {items : List CartLine} (hnd : (items.map CartLine.productId).Nodup) :
    replaceFirst (fun x => x.productId == i) g items =
      items.map (fun x => if x.productId = i then g x else x) := by
  induction items with
  | nil => rfl
  | cons x xs ih =>
    simp only [List.map_cons, List.nodup_cons] at hnd
    unfold replaceFirst
    by_cases hx : x.productId = i
    · rw [if_pos (by simp [hx]), List.map_cons, if_pos hx]
      rw [map_if_no_match]
      intro y hy hyi
      exact hnd.1 (by rw [hx, ← hyi]; exact List.mem_map_of_mem CartLine.productId hy)
    · rw [if_neg (by simp [hx]), List.map_cons, if_neg hx, ih hnd.2]

theorem mem_ite_filter {b : Bool} {f : Product → Bool} {l : List Product} {p : Product}
    (h : p ∈ (if b then l else l.filter f)) : p ∈ l ∧ (b = false → f p = true) := by
  cases b with
  | true => exact ⟨by simpa using h, fun hc => by cases hc⟩
  | false =>
    simp only [if_neg Bool.false_ne_true, List.mem_filter] at h
    exact ⟨h.1, fun _ => h.2⟩

theorem mem_stageSearch {q : ProductQuery} {l : List Product} {p : Product}
    (h : p ∈ stageSearch q l) :
    p ∈ l ∧ (q.search ≠ "" → matchesSearch q.search.toLower p = true) := by
  have := mem_ite_filter (b := q.search == "") (f := matchesSearch q.search.toLower) (l := l)
    (by simpa [stageSearch] using h)
  exact ⟨this.1, fun hne => this.2 (beq_eq_false_iff_ne.mpr hne)⟩

theorem mem_stageCategory {q : ProductQuery} {l : List Product} {p : Product}
    (h : p ∈ stageCategory q l) :
    p ∈ l ∧ (q.category ≠ "" → p.category.toLower = q.category.toLower) := by
  have := mem_ite_filter (b := q.category == "")
    (f := fun p => p.category.toLower == q.category.toLower) (l := l)
    (by simpa [stageCategory] using h)
  exact ⟨this.1, fun hne => by
    have := this.2 (beq_eq_false_iff_ne.mpr hne); exact beq_iff_eq.mp this⟩

theorem mem_stageSubcategory {q : ProductQuery} {l : List Product} {p : Product}
    (h : p ∈ stageSubcategory q l) :
    p ∈ l ∧ (q.subcategory ≠ "" → p.subcategory.toLower = q.subcategory.toLower) := by
  have := mem_ite_filter (b := q.subcategory == "")
    (f := fun p => p.subcategory.toLower == q.subcategory.toLower) (l := l)
    (by simpa [stageSubcategory] using h)
  exact ⟨this.1, fun hne => by
    have := this.2 (beq_eq_false_iff_ne.mpr hne); exact beq_iff_eq.mp this⟩

theorem mem_stageBrand {q : ProductQuery} {l : List Product} {p : Product}
    (h : p ∈ stageBrand q l) :
    p ∈ l ∧ (q.brand ≠ "" → p.brand.toLower = q.brand.toLower) := by
  have := mem_ite_filter (b := q.brand == "")
    (f := fun p => p.brand.toLower == q.brand.toLower) (l := l)
    (by simpa [stageBrand] using h)
  exact ⟨this.1, fun hne => by
    have := this.2 (beq_eq_false_iff_ne.mpr hne); exact beq_iff_eq.mp this⟩

theorem mem_stagePrice {q : ProductQuery} {l : List Product} {p : Product}
    (h : p ∈ stagePrice q l) :
    p ∈ l ∧ q.minPrice ≤ p.price ∧ (∀ mp, q.maxPrice = some mp → p.price ≤ mp) := by
  rw [stagePrice, List.mem_filter] at h
  refine ⟨h.1, ?_, ?_⟩
  · have := h.2
    rw [Bool.and_eq_true] at this
    exact of_decide_eq_true this.1
  · intro mp hmp
    have := h.2
    rw [Bool.and_eq_true, hmp] at this
    exact of_decide_eq_true this.2

theorem mem_stageRating {q : ProductQuery} {l : List Product} {p : Product}
    (h : p ∈ stageRating q l) : p ∈ l ∧ q.minRating ≤ p.rating := by
  rw [stageRating, List.mem_filter] at h
  exact ⟨h.1, of_decide_eq_true h.2⟩

theorem mem_stageStock {q : ProductQuery} {l : List Product} {p : Product}
    (h : p ∈ stageStock q l) :
    p ∈ l ∧ (q.inStock = "true" → p.inStock = true ∧ 0 < p.stock) ∧
      (q.inStock = "false" → p.inStock = false ∨ p.stock = 0) := by
  rw [stageStock] at h
  by_cases h1 : q.inStock = "true"
  · rw [if_pos (by simp [h1])] at h
    rw [List.mem_filter, Bool.and_eq_true] at h
    exact ⟨h.1, fun _ => ⟨h.2.1, of_decide_eq_true h.2.2⟩,
      fun hf => absurd hf (by rw [h1]; decide)⟩
  · rw [if_neg (by simpa using h1)] at h
    by_cases h2 : q.inStock = "false"
    · rw [if_pos (by simp [h2])] at h
      rw [List.mem_filter, Bool.or_eq_true] at h
      refine ⟨h.1, fun ht => absurd ht h1, fun _ => ?_⟩
      rcases h.2 with hb | hs
      · exact Or.inl (by simpa using hb)
      · exact Or.inr (of_decide_eq_true hs)
    · rw [if_neg (by simpa using h2)] at h
      exact ⟨h, fun ht => absurd ht h1, fun hf => absurd hf h2⟩

theorem mem_filteredProducts {products : List Product} {q : ProductQuery} {p : Product}
    (h : p ∈ filteredProducts products q) :
    p ∈ products ∧
    (q.search ≠ "" → matchesSearch q.search.toLower p = true) ∧
    (q.category ≠ "" → p.category.toLower = q.category.toLower) ∧
    (q.subcategory ≠ "" → p.subcategory.toLower = q.subcategory.toLower) ∧
    (q.brand ≠ "" → p.brand.toLower = q.brand.toLower) ∧
    q.minPrice ≤ p.price ∧
    (∀ mp, q.maxPrice = some mp → p.price ≤ mp) ∧
    q.minRating ≤ p.rating ∧
    (q.inStock = "true" → p.inStock = true ∧ 0 < p.stock) ∧
    (q.inStock = "false" → p.inStock = false ∨ p.stock = 0) := by
  rw [filteredProducts] at h
  obtain ⟨h, hstock⟩ := mem_stageStock h
  obtain ⟨h, hrating⟩ := mem_stageRating h
  obtain ⟨h, hprice⟩ := mem_stagePrice h
  obtain ⟨h, hbrand⟩ := mem_stageBrand h
  obtain ⟨h, hsubcat⟩ := mem_stageSubcategory h
  obtain ⟨h, hcat⟩ := mem_stageCategory h
  obtain ⟨h, hsearch⟩ := mem_stageSearch h
  exact ⟨h, hsearch, hcat, hsubcat, hbrand, hprice.1, hprice.2, hrating,
    hstock.1, hstock.2⟩

theorem stageStock_false_eq {q : ProductQuery} (hq : q.inStock = "false")
    (l : List Product) :
    stageStock q l = l.filter (fun x => !(x.inStock && decide (0 < x.stock))) := by
  rw [stageStock, if_neg (by rw [hq]; decide), if_pos (by rw [hq]; decide)]
  apply List.filter_congr
  intro x _
  cases hb : x.inStock <;> by_cases hs : x.stock = 0 <;>
    simp [hs, Nat.pos_iff_ne_zero]

/-- C1: for every catalog product query, every product in the returned
page satisfies all active filter predicates: when a search term is
given, the name, description, or some tag contains it case-insensitively;
given category/subcategory/brand match exactly case-insensitively; the
price lies in the inclusive range `[minPrice, maxPrice]` (`maxPrice`
absent meaning unbounded); the rating is at least `minRating`; with
`inStock=true` the product has `inStock` and positive stock, and with
`inStock=false` the query selects exactly the products failing the
true-filter condition. -/
theorem products_page_filters (products : List Product) (q : ProductQuery) (p : Product)
    (hp : p ∈ (productsQuery products q).data) :
    ((q.search ≠ "" → (jsIncludes p.name.toLower q.search.toLower = true ∨
        jsIncludes p.description.toLower q.search.toLower = true ∨
        ∃ tag ∈ p.tags, jsIncludes tag.toLower q.search.toLower = true)) ∧
     (q.category ≠ "" → p.category.toLower = q.category.toLower) ∧
     (q.subcategory ≠ "" → p.subcategory.toLower = q.subcategory.toLower) ∧
     (q.brand ≠ "" → p.brand.toLower = q.brand.toLower) ∧
     q.minPrice ≤ p.price ∧
     (∀ mp, q.maxPrice = some mp → p.price ≤ mp) ∧
     q.minRating ≤ p.rating ∧
     (q.inStock = "true" → p.inStock = true ∧ 0 < p.stock) ∧
     (q.inStock = "false" → ¬ (p.inStock = true ∧ 0 < p.stock))) ∧
    (q.inStock = "false" →
      filteredProducts products q =
        (filteredProducts products { q with inStock := "" }).filter
          (fun x => !(x.inStock && decide (0 < x.stock)))) := by
  have hp' : p ∈ (((filteredProducts products q).mergeSort
      (productLe q.sortKey q.order)).drop ((q.page - 1) * q.limit)).take q.limit := hp
  have hmem : p ∈ filteredProducts products q :=
    List.mem_mergeSort.mp (List.mem_of_mem_drop (List.mem_of_mem_take hp'))
  obtain ⟨-, hsearch, hcat, hsubcat, hbrand, hminp, hmaxp, hrating, hts, hfs⟩ :=
    mem_filteredProducts hmem
  refine ⟨⟨?_, hcat, hsubcat, hbrand, hminp, hmaxp, hrating, hts, ?_⟩, ?_⟩
  · intro hne
    have hms := hsearch hne
    rw [matchesSearch, Bool.or_eq_true, Bool.or_eq_true] at hms
    rcases hms with (h | h) | h
    · exact Or.inl h
    · exact Or.inr (Or.inl h)
    · refine Or.inr (Or.inr ?_)
      rw [List.any_eq_true] at h
      obtain ⟨tag, htag, hincl⟩ := h
      exact ⟨tag, htag, hincl⟩
  · intro hf
    rcases hfs hf with hb | hs
    · rintro ⟨hT, -⟩
      rw [hT] at hb
      cases hb
    · rintro ⟨-, hpos⟩
      omega
  · intro hf
    show stageStock q (stageRating q (stagePrice q (stageBrand q (stageSubcategory q
      (stageCategory q (stageSearch q products)))))) = _
    rw [stageStock_false_eq hf]
    rfl

/-- Concrete catalog entry used by the witnesses. -/
def wProduct : Product :=
  ⟨1, "Alpha", "desc", ["tag"], "cat", "sub", "br", 10, 4, true, 5, "img"⟩

/-- Concrete default query used by the witnesses. -/
def wQuery : ProductQuery :=
  ⟨"", "", "", "", 0, none, 0, "name", "asc", 1, 6, ""⟩

theorem products_page_filters_witness :
    wProduct ∈ (productsQuery [wProduct] wQuery).data ∧
    wQuery.minPrice ≤ wProduct.price := by
  have hmem : wProduct ∈ (productsQuery [wProduct] wQuery).data := by
    have h : filteredProducts [wProduct] wQuery = [wProduct] := by decide
    show wProduct ∈ (((filteredProducts [wProduct] wQuery).mergeSort
        (productLe wQuery.sortKey wQuery.order)).drop
          ((wQuery.page - 1) * wQuery.limit)).take wQuery.limit
    rw [h]
    simp [wQuery]
  exact ⟨hmem, (products_page_filters [wProduct] wQuery wProduct hmem).1.2.2.2.2.1⟩

/-- C6: the returned page is exactly the slice `[(p-1)*s, p*s)` of the
sorted filtered sequence — the item at page position `i` is the sorted
sequence's element of rank `(p-1)*s + i`, and every such rank lies in
`[s*(p-1), s*p)`; `totalItems` is the filtered length, `totalPages` its
ceiling division by `s`, `hasNextPage` holds iff `p*s < totalItems`, and
`hasPrevPage` holds iff `p > 1`. -/
theorem products_pagination (products : List Product) (q : ProductQuery)
    (hp : 1 ≤ q.page) (_hs : 1 ≤ q.limit) :
    (productsQuery products q).data =
      ((sortedProducts products q).drop ((q.page - 1) * q.limit)).take q.limit ∧
    (∀ i, i < q.limit →
      ((productsQuery products q).data)[i]? =
        (sortedProducts products q)[(q.page - 1) * q.limit + i]?) ∧
    (∀ i, i < ((productsQuery products q).data).length →
      q.limit * (q.page - 1) ≤ (q.page - 1) * q.limit + i ∧
      (q.page - 1) * q.limit + i < q.limit * q.page) ∧
    (productsQuery products q).pagination.totalItems =
      (filteredProducts products q).length ∧
    (productsQuery products q).pagination.totalPages =
      (filteredProducts products q).length ⌈/⌉ q.limit ∧
    ((productsQuery products q).pagination.hasNextPage = true ↔
      q.page * q.limit < (filteredProducts products q).length) ∧
    ((productsQuery products q).pagination.hasPrevPage = true ↔ 1 < q.page) := by
  have hdata : (productsQuery products q).data =
      ((sortedProducts products q).drop ((q.page - 1) * q.limit)).take q.limit := rfl
  have hpp : q.page - 1 + 1 = q.page := Nat.succ_pred_eq_of_pos hp
  have heq : (q.page - 1) * q.limit + q.limit = q.page * q.limit := by
    conv_rhs => rw [← hpp]
    rw [Nat.succ_mul]
  refine ⟨hdata, ?_, ?_, rfl, ?_, ?_, ?_⟩
  · intro i hi
    rw [hdata, List.getElem?_take_of_lt hi, List.getElem?_drop]
  · intro i hi
    rw [hdata, List.length_take] at hi
    have hi' : i < q.limit := lt_of_lt_of_le hi (min_le_left _ _)
    refine ⟨by rw [Nat.mul_comm]; exact Nat.le_add_right _ _, ?_⟩
    calc (q.page - 1) * q.limit + i < (q.page - 1) * q.limit + q.limit := by omega
      _ = q.page * q.limit := heq
      _ = q.limit * q.page := Nat.mul_comm _ _
  · rfl
  · show decide ((q.page - 1) * q.limit + q.limit <
      (filteredProducts products q).length) = true ↔ _
    rw [decide_eq_true_eq, heq]
  · show decide (1 < q.page) = true ↔ 1 < q.page
    rw [decide_eq_true_eq]

theorem products_pagination_witness :
    1 ≤ wQuery.page ∧ 1 ≤ wQuery.limit ∧
    (productsQuery [wProduct] wQuery).pagination.totalItems =
      (filteredProducts [wProduct] wQuery).length :=
  ⟨by decide, by decide,
    (products_pagination [wProduct] wQuery (by decide) (by decide)).2.2.2.1⟩

/-- C7: the feed returns exactly the slice `[cursor, cursor+limit)` of
the filtered sequence; `nextCursor` is `cursor+limit` exactly when that
index is within bounds and absent otherwise; `hasMore` holds iff
`nextCursor` is present; and querying again with the previous
`nextCursor` yields the next contiguous slice with no overlap and no
gap. -/
theorem feed_pagination (feed : List FeedItem) (category : String) (cursor limit : Nat) :
    (feedQuery feed category cursor limit).data =
      ((filteredFeed feed category).drop cursor).take limit ∧
    ((feedQuery feed category cursor limit).nextCursor = some (cursor + limit) ↔
      cursor + limit < (filteredFeed feed category).length) ∧
    ((feedQuery feed category cursor limit).nextCursor = none ↔
      ¬ cursor + limit < (filteredFeed feed category).length) ∧
    ((feedQuery feed category cursor limit).hasMore = true ↔
      (feedQuery feed category cursor limit).nextCursor ≠ none) ∧
    (∀ n, (feedQuery feed category cursor limit).nextCursor = some n →
      (feedQuery feed category cursor limit).data ++
          (feedQuery feed category n limit).data =
        ((filteredFeed feed category).drop cursor).take (limit + limit)) := by
  have hnc : (feedQuery feed category cursor limit).nextCursor =
      (if cursor + limit < (filteredFeed feed category).length
        then some (cursor + limit) else none) := rfl
  have hmore : (feedQuery feed category cursor limit).hasMore =
      !((feedQuery feed category cursor limit).nextCursor == none) := rfl
  refine ⟨rfl, ?_, ?_, ?_, ?_⟩
  · by_cases h : cursor + limit < (filteredFeed feed category).length
    · rw [hnc, if_pos h]
      exact ⟨fun _ => h, fun _ => rfl⟩
    · rw [hnc, if_neg h]
      exact ⟨fun hx => absurd hx (by simp), fun hx => absurd hx h⟩
  · by_cases h : cursor + limit < (filteredFeed feed category).length
    · rw [hnc, if_pos h]
      exact ⟨fun hx => absurd hx (by simp), fun hx => absurd h hx⟩
    · rw [hnc, if_neg h]
      exact ⟨fun _ => h, fun _ => rfl⟩
  · rw [hmore]
    cases hv : (feedQuery feed category cursor limit).nextCursor <;> simp
  · intro n hn
    have hlt : cursor + limit < (filteredFeed feed category).length := by
      by_cases h : cursor + limit < (filteredFeed feed category).length
      · exact h
      · rw [hnc, if_neg h] at hn
        cases hn
    have hn' : n = cursor + limit := by
      rw [hnc, if_pos hlt] at hn
      exact (Option.some.inj hn).symm
    subst hn'
    show ((filteredFeed feed category).drop cursor).take limit ++
      ((filteredFeed feed category).drop (cursor + limit)).take limit = _
    rw [← List.drop_drop, ← List.take_add]

/-- Concrete two-item feed used by the witness. -/
def wFeed : List FeedItem := [⟨1, "a", "x"⟩, ⟨2, "b", "y"⟩]

theorem feed_pagination_witness :
    (feedQuery wFeed "" 0 1).nextCursor = some 1 ∧
    (feedQuery wFeed "" 0 1).data ++ (feedQuery wFeed "" 1 1).data =
      ((filteredFeed wFeed "").drop 0).take (1 + 1) :=
  ⟨rfl, (feed_pagination wFeed "" 0 1).2.2.2.2 1 rfl⟩

theorem ratFloor_eq_intFloor (a : ℚ) : a.floor = ⌊a⌋ := by
  rw [Rat.floor_def', Rat.floor_def]

theorem round2_zero : round2 0 = 0 := by
  rw [round2, ratFloor_eq_intFloor]
  have h : ⌊(0 * 100 + 1 / 2 : ℚ)⌋ = 0 := by
    rw [Int.floor_eq_zero_iff, Set.mem_Ico]
    constructor <;> norm_num
  rw [h]
  norm_num

/-- C8: the `GET /api/cart` summary satisfies
`subtotal = round2 (Σ price·quantity)` and `itemCount = Σ quantity`
over the session's lines, and an absent cart reads as an empty cart with
zero totals without creating a cart entry. -/
theorem getCart_spec (m : CartMap) (sid : String) :
    (getCartOp m sid).2 = m ∧
    (getCartOp m sid).1.summary.subtotal =
      round2 ((((m sid).getD []).map (fun l => l.price * (l.quantity : ℚ))).sum) ∧
    (getCartOp m sid).1.summary.itemCount =
      (((m sid).getD []).map CartLine.quantity).sum ∧
    (m sid = none →
      (getCartOp m sid).1.items = [] ∧
      (getCartOp m sid).1.summary.subtotal = 0 ∧
      (getCartOp m sid).1.summary.itemCount = 0) := by
  have h0 : round2 0 = 0 := round2_zero
  refine ⟨rfl, ?_, ?_, ?_⟩
  · show round2 (subtotalOf ((m sid).getD [])) = _
    rw [subtotalOf_eq_sum]
  · show itemCountOf ((m sid).getD []) = _
    rw [itemCountOf_eq_sum]
  · intro h
    refine ⟨?_, ?_, ?_⟩
    · show (m sid).getD [] = []
      rw [h]
      rfl
    · show round2 (subtotalOf ((m sid).getD [])) = 0
      rw [h]
      exact h0
    · show itemCountOf ((m sid).getD []) = 0
      rw [h]
      rfl

theorem getCart_spec_witness :
    ((fun _ => none : CartMap) "s" = none) ∧
    (getCartOp (fun _ => none) "s").1.items = [] :=
  ⟨rfl, ((getCart_spec (fun _ => none) "s").2.2.2 rfl).1⟩

theorem addOp_error_unchanged (products : List Product) (m : CartMap) (sid : String)
    (pid qty : Option Int) (e : CartError)
    (h : (addOp products m sid pid qty).1 = .error e) :
    (addOp products m sid pid qty).2 = m := by
  by_cases h1 : jsFalsyId pid = true
  · simp only [addOp, if_pos h1]
  · cases hfp : findProduct products (pid.getD 0) with
    | none => simp only [addOp, if_neg h1, hfp]
    | some product =>
      by_cases h2 : (!product.inStock ||
          decide ((product.stock : Int) < qty.getD 1)) = true
      · simp only [addOp, if_neg h1, hfp, if_pos h2]
      · cases hfind : ((m sid).getD []).find?
            (fun item => item.productId == product.id) with
        | none =>
          simp only [addOp, if_neg h1, hfp, if_neg h2, hfind] at h
          simp at h
        | some existingItem =>
          by_cases h3 : decide
              ((product.stock : Int) < existingItem.quantity + qty.getD 1) = true
          · simp only [addOp, if_neg h1, hfp, if_neg h2, hfind, if_pos h3]
            cases hm : m sid with
            | none =>
              rw [hm] at hfind
              simp at hfind
            | some items =>
              funext s
              by_cases hsid : s = sid
              · rw [if_pos hsid, hsid, hm]
                rfl
              · rw [if_neg hsid]
          · simp only [addOp, if_neg h1, hfp, if_neg h2, hfind, if_neg h3] at h
            simp at h

theorem updateOp_error_unchanged (products : List Product) (m : CartMap) (sid : String)
    (pid qty : Option Int) (e : CartError)
    (h : (updateOp products m sid pid qty).1 = .error e) :
    (updateOp products m sid pid qty).2 = m := by
  by_cases h1 : (jsFalsyId pid || qty == none) = true
  · simp only [updateOp, if_pos h1]
  · cases hm : m sid with
    | none => simp only [updateOp, if_neg h1, hm]
    | some items =>
      cases hfind : items.find? (fun item => item.productId == pid.getD 0) with
      | none => simp only [updateOp, if_neg h1, hm, hfind]
      | some line =>
        cases hfp : findProduct products (pid.getD 0) with
        | none => simp only [updateOp, if_neg h1, hm, hfind, hfp]
        | some product =>
          by_cases h2 : decide ((product.stock : Int) < qty.getD 0) = true
          · simp only [updateOp, if_neg h1, hm, hfind, hfp, if_pos h2]
          · by_cases h3 : (qty.getD 0 == 0) = true
            · simp only [updateOp, if_neg h1, hm, hfind, hfp, if_neg h2,
                if_pos h3] at h
              simp at h
            · simp only [updateOp, if_neg h1, hm, hfind, hfp, if_neg h2,
                if_neg h3] at h
              simp at h

theorem removeOp_error_unchanged (m : CartMap) (sid : String) (pid : Int)
    (e : CartError) (h : (removeOp m sid pid).1 = .error e) :
    (removeOp m sid pid).2 = m := by
  cases hm : m sid with
  | none => simp only [removeOp, hm]
  | some items =>
    simp only [removeOp, hm] at h
    simp at h

/-- C5: every mutating cart operation that fails with an error leaves
the session store — cart existence and exact line sequences — exactly as
it was before the call. -/
theorem failed_mutation_unchanged (products : List Product) (m : CartMap)
    (req : Request) (e : CartError)
    (h : (stepResult products m req).1 = Except.error e) :
    (stepResult products m req).2 = m := by
  cases req with
  | add sid pid qty =>
    simp only [stepResult] at h ⊢
    cases hr : (addOp products m sid pid qty).1 with
    | ok a =>
      rw [hr] at h
      simp [Except.map] at h
    | error e2 => exact addOp_error_unchanged products m sid pid qty e2 hr
  | update sid pid qty =>
    simp only [stepResult] at h ⊢
    cases hr : (updateOp products m sid pid qty).1 with
    | ok a =>
      rw [hr] at h
      simp [Except.map] at h
    | error e2 => exact updateOp_error_unchanged products m sid pid qty e2 hr
  | remove sid pid =>
    simp only [stepResult] at h ⊢
    cases hr : (removeOp m sid pid).1 with
    | ok a =>
      rw [hr] at h
      simp [Except.map] at h
    | error e2 => exact removeOp_error_unchanged m sid pid e2 hr
  | clear sid => cases h

theorem failed_mutation_unchanged_witness :
    (stepResult [] (fun _ => none) (Request.remove "s" 1)).1 =
      Except.error (CartError.notFound "Cart not found") ∧
    (stepResult [] (fun _ => none) (Request.remove "s" 1)).2 = (fun _ => none) :=
  ⟨rfl, failed_mutation_unchanged [] (fun _ => none) (Request.remove "s" 1)
    (CartError.notFound "Cart not found") rfl⟩

theorem validateStep_eq (products : List Product) (acc : List CartIssue × List CartLine)
    (l : CartLine) :
    validateStep products acc l =
      (acc.1 ++ (specIssue products l).toList,
       acc.2 ++ (specValid products l).toList) := by
  rw [validateStep, specIssue, specValid]
  cases hfp : findProduct products l.productId with
  | none => simp
  | some p =>
    by_cases hb : p.inStock = true <;> by_cases hs : p.stock = 0 <;>
      by_cases hq : (p.stock : Int) < l.quantity <;>
      by_cases hpr : p.price = l.price <;>
      simp [hb, hs, hq, hpr]

theorem foldl_validateStep (products : List Product) :
    ∀ (items : List CartLine) (acc : List CartIssue × List CartLine),
      items.foldl (validateStep products) acc =
        (acc.1 ++ items.filterMap (specIssue products),
         acc.2 ++ items.filterMap (specValid products))
  | [], acc => by simp
  | l :: ls, acc => by
    rw [List.foldl_cons, validateStep_eq,
      foldl_validateStep products ls, List.filterMap_cons, List.filterMap_cons]
    cases hI : specIssue products l <;> cases hV : specValid products l <;>
      simp

/-- C4: Validate on an absent or empty cart fails with EmptyCart;
otherwise every line is classified in order (gone / out of stock /
insufficient stock / price changed, with a price-changed line still kept
in the valid items at the new price and issue-free lines kept
unchanged); if any issue exists the call fails returning the issue list
and the partially corrected valid items, else it succeeds returning the
valid items with a recomputed subtotal/itemCount summary. The store is
never touched. -/
theorem validate_spec (products : List Product) (m : CartMap) (sid : String) :
    ((m sid = none ∨ (m sid).getD [] = []) →
      validateOp products m sid = (.error .emptyCart, m)) ∧
    (∀ items, m sid = some items → items ≠ [] →
      (items.foldl (validateStep products) ([], [])).1 =
        items.filterMap (specIssue products) ∧
      (items.foldl (validateStep products) ([], [])).2 =
        items.filterMap (specValid products) ∧
      (items.filterMap (specIssue products) ≠ [] →
        validateOp products m sid =
          (.error (.validationFailed (items.filterMap (specIssue products))
            (items.filterMap (specValid products))), m)) ∧
      (items.filterMap (specIssue products) = [] →
        validateOp products m sid =
          (.ok (mkCartOut (items.filterMap (specValid products))), m))) ∧
    (∀ ls, mkCartOut ls =
      ⟨ls, ⟨round2 ((ls.map (fun l => l.price * (l.quantity : ℚ))).sum),
        (ls.map CartLine.quantity).sum⟩⟩) := by
  refine ⟨?_, ?_, ?_⟩
  · intro h
    cases hm : m sid with
    | none => simp [validateOp, hm]
    | some items =>
      have hitems : items = [] := by
        rcases h with h | h
        · rw [hm] at h
          cases h
        · rw [hm] at h
          exact h
      subst hitems
      simp [validateOp, hm]
  · intro items hm hne
    have hfold := foldl_validateStep products items ([], [])
    simp only [List.nil_append] at hfold
    have hlen : (items.length == 0) = false := by
      rw [beq_eq_false_iff_ne]
      intro hc
      exact hne (List.length_eq_zero.mp hc)
    refine ⟨by rw [hfold], by rw [hfold], ?_, ?_⟩
    · intro hiss
      simp only [validateOp, hm, hlen, Bool.false_eq_true, if_false, hfold]
      rw [if_pos (List.length_pos.mpr hiss)]
    · intro hiss
      simp only [validateOp, hm, hlen, Bool.false_eq_true, if_false, hfold]
      rw [if_neg (by simp [hiss])]
  · intro ls
    rw [mkCartOut, subtotalOf_eq_sum, itemCountOf_eq_sum]

/-- Concrete consistent cart line used by the witnesses. -/
def wLine : CartLine := ⟨1, "Alpha", 10, "img", 2⟩

/-- Concrete one-session store used by the witnesses. -/
def wMap : CartMap := fun s => if s = "s" then some [wLine] else none

theorem validate_spec_witness :
    wMap "s" = some [wLine] ∧ ([wLine] : List CartLine) ≠ [] ∧
    [wLine].filterMap (specIssue [wProduct]) = [] ∧
    validateOp [wProduct] wMap "s" =
      (.ok (mkCartOut ([wLine].filterMap (specValid [wProduct]))), wMap) :=
  ⟨rfl, by decide, by decide,
    ((validate_spec [wProduct] wMap "s").2.1 [wLine] rfl (by decide)).2.2.2 (by decide)⟩

/-- Concrete low-stock catalog entry used by the C2 counterexample. -/
def cexProduct : Product :=
  ⟨1, "Alpha", "desc", ["tag"], "cat", "sub", "br", 10, 4, true, 3, "img"⟩

/-- Concrete cart line (2 already in cart) for the C2 counterexample. -/
def cexLine : CartLine := ⟨1, "Alpha", 10, "img", 2⟩

/-- Concrete store for the C2 counterexample. -/
def cexMap : CartMap := fun s => if s = "s" then some [cexLine] else none

theorem add_spec_counterexample :
    (cexLine ∈ (cexMap "s").getD [] ∧ cexLine.productId = 1 ∧
      (addOp [cexProduct] cexMap "s" (some 1) (some 4)).1 =
        Except.error (CartError.insufficientStock 3 none) ∧
      (none : Option Int) ≠ some cexLine.quantity) ∧
    (findProduct [] 0 = none ∧
      (addOp [] (fun _ => none) "s" (some 0) (some 1)).1 =
        Except.error (CartError.validation "productId is required") ∧
      Except.error (CartError.validation "productId is required") ≠
        (Except.error (CartError.notFound "Product not found") :
          Except CartError CartOut)) := by
  refine ⟨⟨by decide, rfl, rfl, by simp⟩, rfl, rfl, by simp⟩

/-- C2 (amended): Add validates the falsy productId first (absent or
zero ids are a validation error); a present nonzero id that does not
resolve fails NotFound; an out-of-stock product or stock below the
requested quantity fails InsufficientStock reporting only the available
stock (even when a line for the product already exists); when a line
exists, stock at least the requested quantity but below existing+requested
fails InsufficientStock reporting both the available stock and the
quantity already in the cart; on success the cart is created lazily and
the line is either appended as a snapshot of the product or its quantity
incremented in place; starting from a cart without duplicate productIds,
no outcome produces two lines with the same productId. -/
theorem add_spec (products : List Product) (m : CartMap) (sid : String)
    (pid qty : Option Int) :
    (jsFalsyId pid = true →
      addOp products m sid pid qty =
        (.error (.validation "productId is required"), m)) ∧
    (∀ i, pid = some i → i ≠ 0 → findProduct products i = none →
      addOp products m sid pid qty = (.error (.notFound "Product not found"), m)) ∧
    (∀ i p, pid = some i → i ≠ 0 → findProduct products i = some p →
      (p.inStock = false ∨ (p.stock : Int) < qty.getD 1) →
      addOp products m sid pid qty =
        (.error (.insufficientStock p.stock none), m)) ∧
    (∀ i p existing, pid = some i → i ≠ 0 → findProduct products i = some p →
      p.inStock = true → qty.getD 1 ≤ (p.stock : Int) →
      ((m sid).getD []).find? (fun item => item.productId == p.id) = some existing →
      (p.stock : Int) < existing.quantity + qty.getD 1 →
      addOp products m sid pid qty =
        (.error (.insufficientStock p.stock (some existing.quantity)), m)) ∧
    (∀ i p, pid = some i → i ≠ 0 → findProduct products i = some p →
      p.inStock = true → qty.getD 1 ≤ (p.stock : Int) →
      ((m sid).getD []).find? (fun item => item.productId == p.id) = none →
      (addOp products m sid pid qty).1 =
        .ok (mkCartOut ((m sid).getD [] ++
          [⟨p.id, p.name, p.price, p.image, qty.getD 1⟩])) ∧
      (addOp products m sid pid qty).2 sid =
        some ((m sid).getD [] ++ [⟨p.id, p.name, p.price, p.image, qty.getD 1⟩]) ∧
      (∀ s, s ≠ sid → (addOp products m sid pid qty).2 s = m s)) ∧
    (∀ i p existing, pid = some i → i ≠ 0 → findProduct products i = some p →
      p.inStock = true → qty.getD 1 ≤ (p.stock : Int) →
      ((m sid).getD []).find? (fun item => item.productId == p.id) = some existing →
      existing.quantity + qty.getD 1 ≤ (p.stock : Int) →
      ((((m sid).getD []).map CartLine.productId).Nodup →
        (addOp products m sid pid qty).2 sid =
          some (((m sid).getD []).map (fun item =>
            if item.productId = p.id then
              { item with quantity := existing.quantity + qty.getD 1 }
            else item))) ∧
      (∀ s, s ≠ sid → (addOp products m sid pid qty).2 s = m s)) ∧
    ((((m sid).getD []).map CartLine.productId).Nodup →
      ∀ items1, (addOp products m sid pid qty).2 sid = some items1 →
        (items1.map CartLine.productId).Nodup) := by
  refine ⟨?_, ?_, ?_, ?_, ?_, ?_, ?_⟩
  · intro h1
    simp only [addOp, if_pos h1]
  · intro i hpid hi hfp
    subst hpid
    have hfalsy : ¬ jsFalsyId (some i) = true := by simp [jsFalsyId, hi]
    simp only [addOp, if_neg hfalsy, Option.getD_some, hfp]
  · intro i p hpid hi hfp hd
    subst hpid
    have hfalsy : ¬ jsFalsyId (some i) = true := by simp [jsFalsyId, hi]
    have hcond : (!p.inStock || decide ((p.stock : Int) < qty.getD 1)) = true := by
      rcases hd with h | h <;> simp [h]
    simp only [addOp, if_neg hfalsy, Option.getD_some, hfp, if_pos hcond]
  · intro i p existing hpid hi hfp hin hq hfind hlt
    subst hpid
    have hfalsy : ¬ jsFalsyId (some i) = true := by simp [jsFalsyId, hi]
    have hcond : ¬ (!p.inStock || decide ((p.stock : Int) < qty.getD 1)) = true := by
      simp [hin]
      omega
    have hm1 : (fun s => if s = sid then some ((m sid).getD []) else m s) = m := by
      funext s
      by_cases hs : s = sid
      · subst hs
        rw [if_pos rfl]
        cases hm : m s with
        | none =>
          rw [hm] at hfind
          simp at hfind
        | some items => rfl
      · rw [if_neg hs]
    simp only [addOp, if_neg hfalsy, Option.getD_some, hfp, if_neg hcond, hfind,
      if_pos (decide_eq_true hlt), hm1]
  · intro i p hpid hi hfp hin hq hfind
    subst hpid
    have hfalsy : ¬ jsFalsyId (some i) = true := by simp [jsFalsyId, hi]
    have hcond : ¬ (!p.inStock || decide ((p.stock : Int) < qty.getD 1)) = true := by
      simp [hin]
      omega
    refine ⟨?_, ?_, ?_⟩
    · simp only [addOp, if_neg hfalsy, Option.getD_some, hfp, if_neg hcond, hfind]
    · simp only [addOp, if_neg hfalsy, Option.getD_some, hfp, if_neg hcond, hfind]
      rw [if_pos trivial]
    · intro s hs
      simp only [addOp, if_neg hfalsy, Option.getD_some, hfp, if_neg hcond, hfind]
      rw [if_neg hs]
  · intro i p existing hpid hi hfp hin hq hfind hle
    subst hpid
    have hfalsy : ¬ jsFalsyId (some i) = true := by simp [jsFalsyId, hi]
    have hcond : ¬ (!p.inStock || decide ((p.stock : Int) < qty.getD 1)) = true := by
      simp [hin]
      omega
    have hc3 : ¬ decide ((p.stock : Int) < existing.quantity + qty.getD 1) = true := by
      simp
      omega
    refine ⟨fun hnd => ?_, fun s hs => ?_⟩
    · simp only [addOp, if_neg hfalsy, Option.getD_some, hfp, if_neg hcond, hfind,
        if_neg hc3]
      rw [if_pos trivial, replaceFirst_eq_map hnd]
    · simp only [addOp, if_neg hfalsy, Option.getD_some, hfp, if_neg hcond, hfind,
        if_neg hc3]
      rw [if_neg hs]
  · intro hnd items1 h2
    by_cases h1 : jsFalsyId pid = true
    · simp only [addOp, if_pos h1] at h2
      rw [h2] at hnd
      simpa using hnd
    · cases hfp : findProduct products (pid.getD 0) with
      | none =>
        simp only [addOp, if_neg h1, hfp] at h2
        rw [h2] at hnd
        simpa using hnd
      | some product =>
        by_cases hc : (!product.inStock ||
            decide ((product.stock : Int) < qty.getD 1)) = true
        · simp only [addOp, if_neg h1, hfp, if_pos hc] at h2
          rw [h2] at hnd
          simpa using hnd
        · cases hfind : ((m sid).getD []).find?
              (fun item => item.productId == product.id) with
          | none =>
            simp only [addOp, if_neg h1, hfp, if_neg hc, hfind] at h2
            rw [if_pos trivial] at h2
            have h2' : items1 = (m sid).getD [] ++
                [⟨product.id, product.name, product.price, product.image,
                  qty.getD 1⟩] := by
              exact (Option.some.inj h2).symm
            subst h2'
            rw [List.map_append]
            have hnotin : product.id ∉ ((m sid).getD []).map CartLine.productId := by
              intro hmem
              rw [List.mem_map] at hmem
              obtain ⟨x, hx, hxe⟩ := hmem
              rw [List.find?_eq_none] at hfind
              exact absurd (by simp [hxe]) (hfind x hx)
            refine List.Nodup.append hnd (by simp) ?_
            intro a ha hb
            simp at hb
            rw [hb] at ha
            exact hnotin ha
          | some existing =>
            by_cases hc3 : decide
                ((product.stock : Int) < existing.quantity + qty.getD 1) = true
            · simp only [addOp, if_neg h1, hfp, if_neg hc, hfind, if_pos hc3] at h2
              rw [if_pos trivial] at h2
              have h2' : items1 = (m sid).getD [] := (Option.some.inj h2).symm
              subst h2'
              exact hnd
            · simp only [addOp, if_neg h1, hfp, if_neg hc, hfind, if_neg hc3] at h2
              rw [if_pos trivial] at h2
              have h2' : items1 = replaceFirst
                  (fun item => item.productId == product.id)
                  (fun item => { item with
                    quantity := existing.quantity + qty.getD 1 })
                  ((m sid).getD []) := (Option.some.inj h2).symm
              subst h2'
              rw [map_replaceFirst_of_fixed
                (fun item => item.productId == product.id)
                (fun item => { item with
                  quantity := existing.quantity + qty.getD 1 })
                CartLine.productId (fun x => rfl) ((m sid).getD [])]
              exact hnd

theorem add_spec_witness :
    ((1 : Int) ≠ 0) ∧ findProduct [wProduct] 1 = some wProduct ∧
    wProduct.inStock = true ∧
    ((some 2 : Option Int).getD 1 ≤ (wProduct.stock : Int)) ∧
    ((((fun _ => none : CartMap) "s").getD []).find?
      (fun item => item.productId == wProduct.id) = none) ∧
    (addOp [wProduct] (fun _ => none) "s" (some 1) (some 2)).2 "s" =
      some ((((fun _ => none : CartMap) "s").getD []) ++
        [⟨wProduct.id, wProduct.name, wProduct.price, wProduct.image,
          (some 2 : Option Int).getD 1⟩]) :=
  ⟨by decide, rfl, rfl, by decide, rfl,
    ((add_spec [wProduct] (fun _ => none) "s" (some 1) (some 2)).2.2.2.2.1
      1 wProduct rfl (by decide) rfl rfl (by decide) rfl).2.1⟩

theorem update_spec_counterexample :
    ((fun _ => none : CartMap) "s" = none) ∧
    (updateOp [] (fun _ => none) "s" (some 0) (some 1)).1 =
      Except.error (CartError.validation "productId and quantity are required") ∧
    Except.error (CartError.validation "productId and quantity are required") ≠
      (Except.error (CartError.notFound "Cart not found") :
        Except CartError CartOut) :=
  ⟨rfl, rfl, by simp⟩

/-- C3 (amended): Update with an absent quantity fails as a validation
error (distinct from an explicit zero), as does a missing or zero
productId; with a present nonzero productId it fails NotFound if the
cart is absent or no line matches; it fails InsufficientStock when the
quantity exceeds the live product's stock; quantity 0 removes the
matching line; a positive quantity replaces (does not increment) the
line's quantity. -/
theorem update_spec (products : List Product) (m : CartMap) (sid : String)
    (pid qty : Option Int) :
    (qty = none →
      updateOp products m sid pid qty =
        (.error (.validation "productId and quantity are required"), m)) ∧
    (∀ i q, pid = some i → i ≠ 0 → qty = some q → m sid = none →
      updateOp products m sid pid qty = (.error (.notFound "Cart not found"), m)) ∧
    (∀ i q items, pid = some i → i ≠ 0 → qty = some q → m sid = some items →
      items.find? (fun item => item.productId == i) = none →
      updateOp products m sid pid qty = (.error (.notFound "Item not in cart"), m)) ∧
    (∀ i q items line p, pid = some i → i ≠ 0 → qty = some q →
      m sid = some items →
      items.find? (fun item => item.productId == i) = some line →
      findProduct products i = some p → (p.stock : Int) < q →
      updateOp products m sid pid qty =
        (.error (.insufficientStock p.stock none), m)) ∧
    (∀ i items line p, pid = some i → i ≠ 0 → qty = some 0 →
      m sid = some items →
      items.find? (fun item => item.productId == i) = some line →
      findProduct products i = some p →
      (updateOp products m sid pid qty).1 =
        .ok (mkCartOut (items.filter (fun item => !(item.productId == i)))) ∧
      (updateOp products m sid pid qty).2 sid =
        some (items.filter (fun item => !(item.productId == i))) ∧
      (∀ s, s ≠ sid → (updateOp products m sid pid qty).2 s = m s)) ∧
    (∀ i q items line p, pid = some i → i ≠ 0 → qty = some q →
      m sid = some items →
      items.find? (fun item => item.productId == i) = some line →
      findProduct products i = some p → 0 < q → q ≤ (p.stock : Int) →
      (items.map CartLine.productId).Nodup →
      (updateOp products m sid pid qty).2 sid =
        some (items.map (fun item =>
          if item.productId = i then { item with quantity := q } else item)) ∧
      (∀ s, s ≠ sid → (updateOp products m sid pid qty).2 s = m s)) := by
  refine ⟨?_, ?_, ?_, ?_, ?_, ?_⟩
  · intro h
    subst h
    have hval : (jsFalsyId pid || (none : Option Int) == none) = true := by simp
    simp only [updateOp, if_pos hval]
  · intro i q hpid hi hq hm
    subst hpid
    subst hq
    have hval : ¬ (jsFalsyId (some i) || some q == none) = true := by
      simp [jsFalsyId, hi]
    simp only [updateOp, if_neg hval, Option.getD_some, hm]
  · intro i q items hpid hi hq hm hfind
    subst hpid
    subst hq
    have hval : ¬ (jsFalsyId (some i) || some q == none) = true := by
      simp [jsFalsyId, hi]
    simp only [updateOp, if_neg hval, Option.getD_some, hm, hfind]
  · intro i q items line p hpid hi hq hm hfind hfp hlt
    subst hpid
    subst hq
    have hval : ¬ (jsFalsyId (some i) || some q == none) = true := by
      simp [jsFalsyId, hi]
    simp only [updateOp, if_neg hval, Option.getD_some, hm, hfind, hfp,
      if_pos (decide_eq_true hlt)]
  · intro i items line p hpid hi hq hm hfind hfp
    subst hpid
    subst hq
    have hval : ¬ (jsFalsyId (some i) || some (0 : Int) == none) = true := by
      simp [jsFalsyId, hi]
    have hns : ¬ decide ((p.stock : Int) < 0) = true := by simp
    have hz : ((0 : Int) == 0) = true := by simp
    refine ⟨?_, ?_, ?_⟩
    · simp only [updateOp, if_neg hval, Option.getD_some, hm, hfind, hfp,
        if_neg hns, if_pos hz]
    · simp only [updateOp, if_neg hval, Option.getD_some, hm, hfind, hfp,
        if_neg hns, if_pos hz]
      rw [if_pos trivial]
    · intro s hs
      simp only [updateOp, if_neg hval, Option.getD_some, hm, hfind, hfp,
        if_neg hns, if_pos hz]
      rw [if_neg hs]
  · intro i q items line p hpid hi hq hm hfind hfp hpos hle hnd
    subst hpid
    subst hq
    have hval : ¬ (jsFalsyId (some i) || some q == none) = true := by
      simp [jsFalsyId, hi]
    have hns : ¬ decide ((p.stock : Int) < q) = true := by
      simp
      omega
    have hz : (q == 0) = false := by
      simp
      omega
    refine ⟨?_, ?_⟩
    · simp only [updateOp, if_neg hval, Option.getD_some, hm, hfind, hfp,
        if_neg hns, hz, Bool.false_eq_true, if_false]
      rw [if_pos trivial, replaceFirst_eq_map hnd]
    · intro s hs
      simp only [updateOp, if_neg hval, Option.getD_some, hm, hfind, hfp,
        if_neg hns, hz, Bool.false_eq_true, if_false]
      rw [if_neg hs]

theorem update_spec_witness :
    ((1 : Int) ≠ 0) ∧ wMap "s" = some [wLine] ∧
    ([wLine].find? (fun item => item.productId == (1 : Int)) = some wLine) ∧
    findProduct [wProduct] 1 = some wProduct ∧
    (updateOp [wProduct] wMap "s" (some 1) (some 0)).2 "s" =
      some ([wLine].filter (fun item => !(item.productId == (1 : Int)))) :=
  ⟨by decide, rfl, rfl, rfl,
    ((update_spec [wProduct] wMap "s" (some 1) (some 0)).2.2.2.2.1
      1 [wLine] wLine wProduct rfl (by decide) rfl rfl rfl rfl).2.1⟩

theorem addOp_snd_spec (products : List Product) (m : CartMap) (sid : String)
    (pid qty : Option Int) (s : String) :
    (addOp products m sid pid qty).2 s = m s ∨
    (s = sid ∧ ∃ items1, (addOp products m sid pid qty).2 s = some items1 ∧
      ∀ l ∈ items1, l ∈ (m sid).getD [] ∨
        (∃ p, findProduct products (pid.getD 0) = some p ∧
          l = ⟨p.id, p.name, p.price, p.image, qty.getD 1⟩) ∨
        (∃ x existing, x ∈ (m sid).getD [] ∧ existing ∈ (m sid).getD [] ∧
          l = { x with quantity := existing.quantity + qty.getD 1 })) := by
  by_cases h1 : jsFalsyId pid = true
  · left
    simp only [addOp, if_pos h1]
  · cases hfp : findProduct products (pid.getD 0) with
    | none =>
      left
      simp only [addOp, if_neg h1, hfp]
    | some product =>
      by_cases hc : (!product.inStock ||
          decide ((product.stock : Int) < qty.getD 1)) = true
      · left
        simp only [addOp, if_neg h1, hfp, if_pos hc]
      · cases hfind : ((m sid).getD []).find?
            (fun item => item.productId == product.id) with
        | none =>
          by_cases hs : s = sid
          · subst hs
            right
            refine ⟨rfl, (m s).getD [] ++
              [⟨product.id, product.name, product.price, product.image,
                qty.getD 1⟩], ?_, ?_⟩
            · simp only [addOp, if_neg h1, hfp, if_neg hc, hfind]
              rw [if_pos trivial]
            · intro l hl
              rcases List.mem_append.mp hl with hin | hnew
              · exact Or.inl hin
              · refine Or.inr (Or.inl ⟨product, rfl, ?_⟩)
                simpa using hnew
          · left
            simp only [addOp, if_neg h1, hfp, if_neg hc, hfind]
            rw [if_neg hs]
        | some existingItem =>
          by_cases hc3 : decide
              ((product.stock : Int) < existingItem.quantity + qty.getD 1) = true
          · by_cases hs : s = sid
            · subst hs
              right
              refine ⟨rfl, (m s).getD [], ?_, fun l hl => Or.inl hl⟩
              simp only [addOp, if_neg h1, hfp, if_neg hc, hfind, if_pos hc3]
              rw [if_pos trivial]
            · left
              simp only [addOp, if_neg h1, hfp, if_neg hc, hfind, if_pos hc3]
              rw [if_neg hs]
          · by_cases hs : s = sid
            · subst hs
              right
              refine ⟨rfl, replaceFirst (fun item => item.productId == product.id)
                (fun item => { item with
                  quantity := existingItem.quantity + qty.getD 1 })
                ((m s).getD []), ?_, ?_⟩
              · simp only [addOp, if_neg h1, hfp, if_neg hc, hfind, if_neg hc3]
                rw [if_pos trivial]
              · intro l hl
                rcases mem_replaceFirst hl with hin | ⟨x, hx, -, hlx⟩
                · exact Or.inl hin
                · exact Or.inr (Or.inr ⟨x, existingItem, hx,
                    List.mem_of_find?_eq_some hfind, hlx⟩)
            · left
              simp only [addOp, if_neg h1, hfp, if_neg hc, hfind, if_neg hc3]
              rw [if_neg hs]

theorem updateOp_snd_spec (products : List Product) (m : CartMap) (sid : String)
    (pid qty : Option Int) (s : String) :
    (updateOp products m sid pid qty).2 s = m s ∨
    (s = sid ∧ ∃ items1, (updateOp products m sid pid qty).2 s = some items1 ∧
      ∀ l ∈ items1, l ∈ (m sid).getD [] ∨
        (∃ x, x ∈ (m sid).getD [] ∧ (qty.getD 0 == 0) = false ∧
          l = { x with quantity := qty.getD 0 })) := by
  by_cases h1 : (jsFalsyId pid || qty == none) = true
  · left
    simp only [updateOp, if_pos h1]
  · cases hm : m sid with
    | none =>
      left
      simp only [updateOp, if_neg h1, hm]
    | some items =>
      cases hfind : items.find? (fun item => item.productId == pid.getD 0) with
      | none =>
        left
        simp only [updateOp, if_neg h1, hm, hfind]
      | some line =>
        cases hfp : findProduct products (pid.getD 0) with
        | none =>
          left
          simp only [updateOp, if_neg h1, hm, hfind, hfp]
        | some product =>
          by_cases h2 : decide ((product.stock : Int) < qty.getD 0) = true
          · left
            simp only [updateOp, if_neg h1, hm, hfind, hfp, if_pos h2]
          · by_cases h3 : (qty.getD 0 == 0) = true
            · by_cases hs : s = sid
              · subst hs
                right
                refine ⟨rfl, items.filter (fun item => !(item.productId == pid.getD 0)),
                  ?_, ?_⟩
                · simp only [updateOp, if_neg h1, hm, hfind, hfp, if_neg h2,
                    if_pos h3]
                  rw [if_pos trivial]
                · intro l hl
                  exact Or.inl (List.mem_filter.mp hl).1
              · left
                simp only [updateOp, if_neg h1, hm, hfind, hfp, if_neg h2,
                  if_pos h3]
                rw [if_neg hs]
            · by_cases hs : s = sid
              · subst hs
                right
                refine ⟨rfl, replaceFirst (fun item => item.productId == pid.getD 0)
                  (fun item => { item with quantity := qty.getD 0 }) items, ?_, ?_⟩
                · simp only [updateOp, if_neg h1, hm, hfind, hfp, if_neg h2,
                    if_neg h3]
                  rw [if_pos trivial]
                · intro l hl
                  rcases mem_replaceFirst hl with hin | ⟨x, hx, -, hlx⟩
                  · exact Or.inl hin
                  · refine Or.inr ⟨x, hx, ?_, hlx⟩
                    exact beq_eq_false_iff_ne.mpr (fun hq =>
                      h3 (by simp [hq]))
              · left
                simp only [updateOp, if_neg h1, hm, hfind, hfp, if_neg h2,
                  if_neg h3]
                rw [if_neg hs]

theorem removeOp_snd_spec (m : CartMap) (sid : String) (pid : Int) (s : String) :
    (removeOp m sid pid).2 s = m s ∨
    (s = sid ∧ ∃ items1, (removeOp m sid pid).2 s = some items1 ∧
      ∀ l ∈ items1, l ∈ (m sid).getD []) := by
  cases hm : m sid with
  | none =>
    left
    simp only [removeOp, hm]
  | some items =>
    by_cases hs : s = sid
    · subst hs
      right
      refine ⟨rfl, items.filter (fun item => !(item.productId == pid)), ?_, ?_⟩
      · simp only [removeOp, hm]
        rw [if_pos trivial]
      · intro l hl
        exact (List.mem_filter.mp hl).1
    · left
      simp only [removeOp, hm]
      rw [if_neg hs]

theorem foldl_step_invariant (P : CartMap → Prop) (Q : Request → Prop)
    (products : List Product)
    (hstep : ∀ m req, P m → Q req → P (step products m req)) :
    ∀ (reqs : List Request) (m : CartMap), P m → (∀ r ∈ reqs, Q r) →
      P (reqs.foldl (step products) m)
  | [], m, hm, _ => hm
  | r :: rs, m, hm, hall => by
    rw [List.foldl_cons]
    exact foldl_step_invariant P Q products hstep rs _
      (hstep m r hm (hall r (List.mem_cons_self r rs)))
      (fun x hx => hall x (List.mem_cons_of_mem r hx))

theorem linesPositive_step (products : List Product) (m : CartMap) (req : Request)
    (hm : linesPositive m) (hq : posQuantities req) :
    linesPositive (step products m req) := by
  cases req with
  | add sid pid qty =>
    intro s l hl
    have hstep : step products m (Request.add sid pid qty) =
      (addOp products m sid pid qty).2 := rfl
    rw [hstep] at hl
    rcases addOp_snd_spec products m sid pid qty s with heq | ⟨-, items1, heq, horigin⟩
    · rw [heq] at hl
      exact hm s l hl
    · rw [heq] at hl
      simp only [Option.getD_some] at hl
      rcases horigin l hl with hold | ⟨p, -, hnew⟩ | ⟨x, existing, -, hex, hinc⟩
      · exact hm sid l hold
      · rw [hnew]
        show 0 < qty.getD 1
        have h1 : (1 : Int) ≤ qty.getD 1 := hq
        omega
      · rw [hinc]
        show 0 < existing.quantity + qty.getD 1
        have h1 : (1 : Int) ≤ qty.getD 1 := hq
        have h2 := hm sid existing hex
        omega
  | update sid pid qty =>
    intro s l hl
    have hstep : step products m (Request.update sid pid qty) =
      (updateOp products m sid pid qty).2 := rfl
    rw [hstep] at hl
    rcases updateOp_snd_spec products m sid pid qty s with heq | ⟨-, items1, heq, horigin⟩
    · rw [heq] at hl
      exact hm s l hl
    · rw [heq] at hl
      simp only [Option.getD_some] at hl
      rcases horigin l hl with hold | ⟨x, -, hz, hrep⟩
      · exact hm sid l hold
      · rw [hrep]
        show 0 < qty.getD 0
        cases hqy : qty with
        | none =>
          rw [hqy] at hz
          simp at hz
        | some q0 =>
          have h0 : (0 : Int) ≤ q0 := hq q0 hqy
          rw [hqy] at hz
          simp only [Option.getD_some] at hz ⊢
          have hne : q0 ≠ 0 := by simpa using hz
          omega
  | remove sid pid =>
    intro s l hl
    have hstep : step products m (Request.remove sid pid) =
      (removeOp m sid pid).2 := rfl
    rw [hstep] at hl
    rcases removeOp_snd_spec m sid pid s with heq | ⟨-, items1, heq, horigin⟩
    · rw [heq] at hl
      exact hm s l hl
    · rw [heq] at hl
      simp only [Option.getD_some] at hl
      exact hm sid l (horigin l hl)
  | clear sid =>
    intro s l hl
    have hstep : step products m (Request.clear sid) =
      (fun s => if s = sid then none else m s) := rfl
    simp only [hstep] at hl
    by_cases hs : s = sid
    · rw [if_pos hs] at hl
      simp at hl
    · rw [if_neg hs] at hl
      exact hm s l hl

/-- C9 (amended): in every cart state reachable through the cart
operations whose Add requests carry a positive (or defaulted) quantity
and whose Update requests carry a non-negative quantity, every cart
line's quantity is a positive integer. The handlers themselves never
validate caller-supplied quantities, so the restriction on requests is
necessary (see the counterexample: Add with quantity 0 creates a
zero-quantity line). -/
theorem cart_quantities_positive (products : List Product) (reqs : List Request)
    (hq : ∀ r ∈ reqs, posQuantities r) :
    linesPositive (runRequests products reqs) := by
  rw [runRequests]
  exact foldl_step_invariant linesPositive posQuantities products
    (fun m req hm hr => linesPositive_step products m req hm hr) reqs
    (fun _ => none) (fun s l hl => absurd hl (List.not_mem_nil l)) hq

/-- Zero-quantity line created by `Add(1, 0)` in the counterexample. -/
def wLineZero : CartLine := ⟨1, "Alpha", 10, "img", 0⟩

theorem cart_quantities_positive_counterexample :
    wLineZero ∈
      ((runRequests [wProduct] [Request.add "s" (some 1) (some 0)]) "s").getD [] ∧
    ¬ (0 < wLineZero.quantity) :=
  ⟨by decide, by decide⟩

theorem cart_quantities_positive_witness :
    (∀ r ∈ [Request.add "s" (some 1) (some 2)], posQuantities r) ∧
    linesPositive (runRequests [wProduct] [Request.add "s" (some 1) (some 2)]) := by
  have hq : ∀ r ∈ [Request.add "s" (some 1) (some 2)], posQuantities r := by
    intro r hr
    rw [List.mem_singleton] at hr
    subst hr
    show (1 : Int) ≤ (some (2 : Int)).getD 1
    decide
  exact ⟨hq, cart_quantities_positive [wProduct]
    [Request.add "s" (some 1) (some 2)] hq⟩

theorem linesResolve_step (products : List Product) (m : CartMap) (req : Request)
    (hm : linesResolve products m) :
    linesResolve products (step products m req) := by
  cases req with
  | add sid pid qty =>
    intro s l hl
    have hstep : step products m (Request.add sid pid qty) =
      (addOp products m sid pid qty).2 := rfl
    rw [hstep] at hl
    rcases addOp_snd_spec products m sid pid qty s with heq | ⟨-, items1, heq, horigin⟩
    · rw [heq] at hl
      exact hm s l hl
    · rw [heq] at hl
      simp only [Option.getD_some] at hl
      rcases horigin l hl with hold | ⟨p, hfp, hnew⟩ | ⟨x, existing, hx, -, hinc⟩
      · exact hm sid l hold
      · refine ⟨p, List.mem_of_find?_eq_some hfp, ?_⟩
        rw [hnew]
      · obtain ⟨p, hp, hpid⟩ := hm sid x hx
        refine ⟨p, hp, ?_⟩
        rw [hinc]
        exact hpid
  | update sid pid qty =>
    intro s l hl
    have hstep : step products m (Request.update sid pid qty) =
      (updateOp products m sid pid qty).2 := rfl
    rw [hstep] at hl
    rcases updateOp_snd_spec products m sid pid qty s with heq | ⟨-, items1, heq, horigin⟩
    · rw [heq] at hl
      exact hm s l hl
    · rw [heq] at hl
      simp only [Option.getD_some] at hl
      rcases horigin l hl with hold | ⟨x, hx, -, hrep⟩
      · exact hm sid l hold
      · obtain ⟨p, hp, hpid⟩ := hm sid x hx
        refine ⟨p, hp, ?_⟩
        rw [hrep]
        exact hpid
  | remove sid pid =>
    intro s l hl
    have hstep : step products m (Request.remove sid pid) =
      (removeOp m sid pid).2 := rfl
    rw [hstep] at hl
    rcases removeOp_snd_spec m sid pid s with heq | ⟨-, items1, heq, horigin⟩
    · rw [heq] at hl
      exact hm s l hl
    · rw [heq] at hl
      simp only [Option.getD_some] at hl
      exact hm sid l (horigin l hl)
  | clear sid =>
    intro s l hl
    have hstep : step products m (Request.clear sid) =
      (fun s => if s = sid then none else m s) := rfl
    simp only [hstep] at hl
    by_cases hs : s = sid
    · rw [if_pos hs] at hl
      simp at hl
    · rw [if_neg hs] at hl
      exact hm s l hl

theorem specIssue_gone (products : List Product) (l : CartLine) (i : Int)
    (h : specIssue products l = some (CartIssue.gone i)) :
    findProduct products l.productId = none := by
  cases hfp : findProduct products l.productId with
  | none => rfl
  | some p =>
    simp only [specIssue, hfp] at h
    split_ifs at h <;> simp at h

/-- C10: every reachable cart line's productId references a product
present in the (immutable) catalog; consequently Update's unguarded
live-product lookup never reaches the internal-error (500) branch, and
Validate never emits a 'Product no longer exists' issue, within a
single process run. -/
theorem cart_lines_resolve (products : List Product) (reqs : List Request) :
    linesResolve products (runRequests products reqs) ∧
    (∀ sid pid qty,
      (updateOp products (runRequests products reqs) sid pid qty).1 ≠
        Except.error CartError.internal) ∧
    (∀ sid issues valids,
      (validateOp products (runRequests products reqs) sid).1 =
        Except.error (CartError.validationFailed issues valids) →
      ∀ i, CartIssue.gone i ∉ issues) := by
  have hres : linesResolve products (runRequests products reqs) := by
    rw [runRequests]
    exact foldl_step_invariant (linesResolve products) (fun _ => True) products
      (fun m req hm _ => linesResolve_step products m req hm) reqs
      (fun _ => none) (fun s l hl => absurd hl (List.not_mem_nil l))
      (fun _ _ => trivial)
  refine ⟨hres, ?_, ?_⟩
  · intro sid pid qty hcontra
    by_cases h1 : (jsFalsyId pid || qty == none) = true
    · simp only [updateOp, if_pos h1] at hcontra
      simp at hcontra
    · cases hm : (runRequests products reqs) sid with
      | none =>
        simp only [updateOp, if_neg h1, hm] at hcontra
        simp at hcontra
      | some items =>
        cases hfind : items.find? (fun item => item.productId == pid.getD 0) with
        | none =>
          simp only [updateOp, if_neg h1, hm, hfind] at hcontra
          simp at hcontra
        | some line =>
          cases hfp : findProduct products (pid.getD 0) with
          | some product =>
            simp only [updateOp, if_neg h1, hm, hfind, hfp] at hcontra
            by_cases h2 : decide ((product.stock : Int) < qty.getD 0) = true
            · rw [if_pos h2] at hcontra
              simp at hcontra
            · rw [if_neg h2] at hcontra
              by_cases h3 : (qty.getD 0 == 0) = true
              · rw [if_pos h3] at hcontra
                simp at hcontra
              · rw [if_neg h3] at hcontra
                simp at hcontra
          | none =>
            have hline : line ∈ items := List.mem_of_find?_eq_some hfind
            have hmem : line ∈ ((runRequests products reqs) sid).getD [] := by
              rw [hm]
              exact hline
            obtain ⟨p, hp, hpid⟩ := hres sid line hmem
            have hpe : line.productId = pid.getD 0 := by
              simpa using List.find?_some hfind
            rw [findProduct, List.find?_eq_none] at hfp
            exact hfp p hp (by simp [hpid, hpe])
  · intro sid issues valids h i hmem
    cases hm : (runRequests products reqs) sid with
    | none =>
      simp only [validateOp, hm] at h
      simp at h
    | some items =>
      by_cases hlen : (items.length == 0) = true
      · simp only [validateOp, hm, if_pos hlen] at h
        simp at h
      · simp only [validateOp, hm] at h
        rw [if_neg hlen] at h
        have hfold := foldl_validateStep products items ([], [])
        simp only [List.nil_append] at hfold
        rw [hfold] at h
        by_cases hpos : 0 < (items.filterMap (specIssue products)).length
        · rw [if_pos hpos] at h
          simp only [Except.error.injEq, CartError.validationFailed.injEq] at h
          obtain ⟨hiss, -⟩ := h
          rw [← hiss] at hmem
          rw [List.mem_filterMap] at hmem
          obtain ⟨l, hl, hspec⟩ := hmem
          have hnone := specIssue_gone products l i hspec
          have hmem2 : l ∈ ((runRequests products reqs) sid).getD [] := by
            rw [hm]
            exact hl
          obtain ⟨p, hp, hpid⟩ := hres sid l hmem2
          rw [findProduct, List.find?_eq_none] at hnone
          exact hnone p hp (by simp [hpid])
        · rw [if_neg hpos] at h
          simp at h

theorem cart_lines_resolve_witness :
    wLine ∈
      ((runRequests [wProduct] [Request.add "s" (some 1) (some 2)]) "s").getD [] ∧
    ∃ p ∈ [wProduct], p.id = wLine.productId :=
  ⟨by decide,
    (cart_lines_resolve [wProduct] [Request.add "s" (some 1) (some 2)]).1
      "s" wLine (by decide)⟩
